import Mathlib

/-!
Shallow embedding of pwndbg's context command module
(src/pwndbg/commands/context.py): the output-routing layer, the context
orchestrator with its destination-splitting and terminal de-duplication
logic, the source-window resolver, the backtrace walker and the
signal-event cache, together with theorems checking the specification's
claims about them.

Python machine integers are modelled as `Int`/`Nat`; fallible operations
return `Except`/`Option`; module-global mutable state is passed explicitly
and the post-state is returned.
-/

set_option maxHeartbeats 1000000
set_option maxRecDepth 100000

/-- Right-pad a string with spaces to the given width (Python `str.format`
left-justified field; a no-op when the string is already wider). -/
def padRight (s : String) (w : Nat) : String :=
  s ++ String.mk (List.replicate (w - s.length) ' ')

/-- Left-pad a string with spaces to the given width (Python format spec
right alignment). -/
def padLeft (s : String) (w : Nat) : String :=
  String.mk (List.replicate (w - s.length) ' ') ++ s

/-- Lowercase hexadecimal rendering of a number, as Python renders `n` with
the `%#x` conversion. -/
def hexStr (n : Nat) : String :=
  "0x" ++ String.mk (Nat.toDigits 16 n)

/-- An output destination as resolved by `output` (context.py lines 95-100):
either the standard output stream (the `StdOutput` wrapper of lines 78-83)
or a file/tty path to be opened. -/
inductive Dest where
  | stdoutDest : Dest
  | fileDest : String → Dest
deriving DecidableEq

/-- The escape sequence written by `clear_screen` (context.py lines 40-45):
cursor to the top-left corner, then clear the content. -/
def clear_screen_seq : String := "\x1b[H\x1b[J"

/-- Embedding of `output` (context.py lines 95-100): a falsy (empty) value
and the value "stdout" give the standard-output wrapper; any other value is
treated as a path to be opened with mode "w". -/
def output (config_output_tty : String) : Dest :=
  if config_output_tty = "" ∨ config_output_tty = "stdout" then Dest.stdoutDest
  else Dest.fileDest config_output_tty

/-- One observable I/O action performed by `show_context`. -/
inductive IOEv where
  | openF : String → String → IOEv
  | writeS : String → IOEv
  | flushS : IOEv
  | closeF : String → IOEv
deriving DecidableEq

/-- The ordered body operations of `show_context` (context.py lines 85-92):
the clear-screen write when `config_clear_screen` is set, then one write of
`line + "\n"` per content line, then a flush. -/
def bodyOps (config_clear_screen : Bool) (content : List String) : List IOEv :=
  (if config_clear_screen then [IOEv.writeS clear_screen_seq] else []) ++
    content.map (fun line => IOEv.writeS (line ++ "\n")) ++ [IOEv.flushS]

/-- Embedding of `show_context` (context.py lines 85-92) as the trace of I/O
events it performs.  `failAt = some k` models an IOError raised by the k-th
body operation: the operations before it have happened, the rest are
skipped, and — because the body runs inside `with output(...) as out` — a
file destination is still closed (the context-manager guarantee).  The
returned Bool is true iff no failure occurred. -/
def show_context_trace (config_clear_screen : Bool) (config_output_tty : String)
    (content : List String) (failAt : Option Nat) : List IOEv × Bool :=
  let body := bodyOps config_clear_screen content
  let done :=
    match failAt with
    | none => (body, true)
    | some k => if k < body.length then (body.take k, false) else (body, true)
  match output config_output_tty with
  | Dest.stdoutDest => done
  | Dest.fileDest p => (IOEv.openF p "w" :: (done.1 ++ [IOEv.closeF p]), done.2)

/-- The first write event of a trace, skipping open/close/flush events. -/
def firstWriteEv : List IOEv → Option IOEv
  | [] => none
  | IOEv.writeS s :: _ => some (IOEv.writeS s)
  | _ :: rest => firstWriteEv rest

/-- Embedding of the window computation of `get_filename_and_formatted_source`
(context.py lines 280-296): the slice bounds `start`/`end`, the slice of the
cached source, and the line numbering attached by
`enumerate(source, start=start + 1)`.  Integer division is Python floor
division; gdb line numbers are at least 1, so the bounds are nonnegative. -/
def sourceWindow (n : Int) (closest_line : Int) (source : List String) :
    List (Int × String) :=
  let start := max (closest_line - 1 - Int.fdiv n 2) 0
  let stop := min (closest_line - 1 + Int.fdiv n 2 + 1) (source.length : Int)
  let sliced := (source.drop start.toNat).take (stop - start).toNat
  sliced.enum.map (fun p => (start + 1 + (p.1 : Int), p.2))

/-- Embedding of the formatting loop of `get_filename_and_formatted_source`
(context.py lines 285-308): each windowed line is rendered as a space, the
prefix glyph (only on the current line) padded to the glyph's width, the
right-aligned line number, and the code.  The external color helpers
`C.prefix` and `C.highlight` (modules not under src/) are identity without
color. -/
def formatted_source (n : Int) (closest_line : Int) (prefix_sign : String)
    (source : List String) : List String :=
  let stop := min (closest_line - 1 + Int.fdiv n 2 + 1) (source.length : Int)
  let num_width := (toString stop).length
  let prefix_width := prefix_sign.length
  (sourceWindow n closest_line source).map (fun p =>
    " " ++ padRight (if p.1 = closest_line then prefix_sign else "") prefix_width ++
      " " ++ padLeft (toString p.1) num_width ++ " " ++ p.2)

/-- Errors the `context` command can raise before or instead of writing. -/
inductive CtxErr where
  | keyError : CtxErr
  | indexError : CtxErr
  | osError : CtxErr
deriving DecidableEq

/-- The configuration parameters read by the `context` command
(context.py lines 47-58): the primary destination and the six per-section
destinations (sentinel "nosplit"), plus the configured default section-token
order (already split on whitespace). -/
structure CtxConfig where
  output : String
  outputRegs : String
  outputDisasm : String
  outputArgs : String
  outputCode : String
  outputStack : String
  outputBacktrace : String
  contextSections : List String
deriving DecidableEq

/-- The ambient state a refresh reads: the six section producers' outputs,
the result of `os.ttyname(1)` (`none` when file descriptor 1 is not attached
to a terminal, in which case the call raises OSError), and the module-global
`last_signal`. -/
structure CtxState where
  secOutput : Char → List String
  ttyname1 : Option String
  lastSignal : List String

/-- The six section keys of the `context_sections` dict (context.py
lines 453-460). -/
def sectionKeys : List Char := ['r', 'd', 'a', 'c', 's', 'b']

/-- Embedding of `context_sections.get(key, None)` (context.py lines
453-460): the producer output for one of the six known keys, `none`
otherwise. -/
def context_sections_get (st : CtxState) (c : Char) : Option (List String) :=
  if c ∈ sectionKeys then some (st.secOutput c) else none

/-- Embedding of the dict `splited_config_outputs` (context.py lines
124-131); indexing it with any other key raises KeyError. -/
def splited_config_outputs (cfg : CtxConfig) (c : Char) : Option String :=
  if c = 'r' then some cfg.outputRegs
  else if c = 'd' then some cfg.outputDisasm
  else if c = 'a' then some cfg.outputArgs
  else if c = 'c' then some cfg.outputCode
  else if c = 's' then some cfg.outputStack
  else if c = 'b' then some cfg.outputBacktrace
  else none

/-- Embedding of `args = [a[0] for a in args]` (context.py line 122); an
empty token raises IndexError. -/
def firstChars : List String → Except CtxErr (List Char)
  | [] => Except.ok []
  | s :: rest =>
    match s.toList with
    | [] => Except.error CtxErr.indexError
    | c :: _ => (firstChars rest).map (fun cs => c :: cs)

/-- Insertion-ordered dict update, as `splited_output_queue[k].extend(v)`
after `splited_output_queue[k] = []` on a fresh key (context.py
lines 140-143). -/
def queueAdd (q : List (String × List String)) (k : String) (v : List String) :
    List (String × List String) :=
  match q with
  | [] => [(k, v)]
  | (k0, v0) :: rest =>
    if k0 = k then (k0, v0 ++ v) :: rest else (k0, v0) :: queueAdd rest k v

/-- Dict lookup, as `current_tty in splited_output_queue` plus indexing
(context.py lines 154-155). -/
def qLookup (q : List (String × List String)) (k : String) : Option (List String) :=
  match q with
  | [] => none
  | (k0, v0) :: rest => if k0 = k then some v0 else qLookup rest k

/-- Dict deletion, as `del splited_output_queue[current_tty]` (context.py
line 156). -/
def qErase (q : List (String × List String)) (k : String) :
    List (String × List String) :=
  match q with
  | [] => []
  | (k0, v0) :: rest => if k0 = k then rest else (k0, v0) :: qErase rest k

/-- The keys of the queue, in insertion order. -/
def qKeys (q : List (String × List String)) : List String := q.map Prod.fst

/-- Embedding of the destination-splitting loop (context.py lines 135-144):
iterate over a copy of the requested keys; a key whose configured
destination is not the sentinel "nosplit" and that has a registered producer
has its output accumulated into the per-destination queue and its first
occurrence removed from the default list.  Indexing the config dict with an
unknown key raises KeyError. -/
def splitFold (cfgOut : Char → Option String) (secOut : Char → Option (List String)) :
    List Char → List Char × List (String × List String) →
    Except CtxErr (List Char × List (String × List String))
  | [], acc => Except.ok acc
  | c :: rest, (args, q) =>
    match cfgOut c with
    | none => Except.error CtxErr.keyError
    | some d =>
      if d ≠ "nosplit" then
        match secOut c with
        | some out => splitFold cfgOut secOut rest (args.erase c, queueAdd q d out)
        | none => splitFold cfgOut secOut rest (args, q)
      else splitFold cfgOut secOut rest (args, q)

/-- Modelled from the spec: `pwndbg.color.memory.legend()` (module not under
src/) — the legend line prepended when any non-split section remains. -/
def legendLine : String := "LEGEND: STACK | HEAP | CODE | DATA | RWX | RODATA"

/-- Modelled from the spec: `pwndbg.ui.banner(title)` (module not under
src/) — a horizontal banner line carrying a title. -/
def bannerOf (title : String) : String := "----[ " ++ title ++ " ]----"

/-- The default-stream batch (context.py lines 146-151): the legend line when
any non-split section key remains, then the remaining sections' outputs in
requested order (keys with no registered producer are skipped). -/
def defaultBatch (st : CtxState) (args : List Char) : List String :=
  (if args = [] then [] else [legendLine]) ++
    (args.filterMap (context_sections_get st)).flatten

/-- The observable outcome of one refresh: the ordered (destination, lines)
writes, the value of the module-global `last_signal` afterwards (the
function never assigns it), and the exception if one was raised — in which
case no write happened, since both `show_context` calls come after
line 153. -/
structure CtxResult where
  writes : List (String × List String)
  lastSignalAfter : List String
  err : Option CtxErr
deriving DecidableEq

/-- Embedding of the body of `context` from the destination split onward
(context.py lines 124-163), for an already-parsed key list: split the
sections into per-destination batches, render the remaining ones after the
legend, query `os.ttyname(1)` unconditionally, merge the batch whose key
equals that terminal into the default batch, append a blank banner to a
non-empty default batch, append the pending signal lines, then emit the
primary write followed by one write per remaining batch. -/
def contextCore (cfg : CtxConfig) (st : CtxState) (args : List Char) : CtxResult :=
  match splitFold (splited_config_outputs cfg) (context_sections_get st) args (args, []) with
  | Except.error e => ⟨[], st.lastSignal, some e⟩
  | Except.ok (args2, q) =>
    match st.ttyname1 with
    | none => ⟨[], st.lastSignal, some CtxErr.osError⟩
    | some current_tty =>
      let dflt := defaultBatch st args2
      let merged :=
        match qLookup q current_tty with
        | some batch => dflt ++ batch
        | none => dflt
      let q2 :=
        match qLookup q current_tty with
        | some _ => qErase q current_tty
        | none => q
      let withBanner := if 0 < merged.length then merged ++ [bannerOf ""] else merged
      ⟨(cfg.output, withBanner ++ st.lastSignal) :: q2, st.lastSignal, none⟩

/-- Embedding of the `context` command (context.py lines 109-163):
an empty request means the configured `context-sections` order; each token
is reduced to its first character; then the core runs. -/
def context (cfg : CtxConfig) (st : CtxState) (subcontext : List String) : CtxResult :=
  let args0 := if subcontext = [] then cfg.contextSections else subcontext
  match firstChars args0 with
  | Except.error e => ⟨[], st.lastSignal, some e⟩
  | Except.ok args => contextCore cfg st args

/-- A live frame chain over frame identities `Fin N`: the predecessor
(`older`) and successor (`newer`) navigation, the program counter, and the
resolved symbol name (`pwndbg.symbol.get` yields the empty string when
nothing resolves).  `older f = none` models both a chain end and a
`gdb.MemoryError` on the call — the oldest-frame walk treats them alike
(context.py lines 359-367), and in the emission loop a `None` frame makes
the next iteration raise. -/
structure FrameChain (N : Nat) where
  older : Fin N → Option (Fin N)
  newer : Fin N → Option (Fin N)
  pc : Fin N → Nat
  symbol : Fin N → String

/-- The oldest-frame walk (context.py lines 359-367): up to `count` `older`
steps, stopping early at a chain end or a `gdb.MemoryError`. -/
def oldestOf {N : Nat} (ch : FrameChain N) : Fin N → Nat → Fin N
  | f, 0 => f
  | f, count + 1 =>
    match ch.older f with
    | none => f
    | some g => oldestOf ch g count

/-- The newest-frame walk (context.py lines 369-373): up to `count` `newer`
steps, stopping at a chain end. -/
def newestOf {N : Nat} (ch : FrameChain N) : Fin N → Nat → Fin N
  | f, 0 => f
  | f, count + 1 =>
    match ch.newer f with
    | none => f
    | some g => newestOf ch g count

/-- Modelled from the spec: the theme parameter of
`pwndbg.color.backtrace` (module not under src/) giving the backtrace
position marker, default a single marker glyph. -/
def bt_prefix_str : String := "►"

/-- Default of the theme parameter `backtrace-frame-label` (context.py
line 346). -/
def backtrace_frame_label : String := "f "

/-- Modelled from the spec: `pwndbg.ui.addrsz` (module not under src/)
renders a program-counter address in hexadecimal. -/
def addrsz (a : Nat) : String := hexStr a

/-- One backtrace line (context.py lines 380-388): a position marker that is
the marker glyph on the originally selected frame and same-width spaces on
every other frame, the frame label with the zero-based index, the address,
and the symbol name appended when resolvable.  The color wrappers of
`pwndbg.color.backtrace` (module not under src/) are identity without
color. -/
def btLine {N : Nat} (ch : FrameChain N) (this_frame frame : Fin N) (i : Nat) : String :=
  let m := if frame = this_frame then bt_prefix_str
           else String.mk (List.replicate bt_prefix_str.length ' ')
  let pre := " " ++ m
  let a0 := addrsz (ch.pc frame)
  let a1 := if ch.symbol frame = "" then a0 else a0 ++ " " ++ ch.symbol frame
  pre ++ " " ++ (backtrace_frame_label ++ toString i) ++ " " ++ a1

/-- Status of the fueled emission loop: it reached the oldest frame and
returned; it stepped onto a missing frame so the next Python iteration
raises; or the fuel ran out with the Python loop still running. -/
inductive BtStatus where
  | finished : BtStatus
  | failed : BtStatus
  | fuelOut : BtStatus
deriving DecidableEq

/-- Embedding of the `while True` emission loop (context.py lines 375-394),
made total by a fuel parameter: each step emits the current frame's line,
stops when the computed oldest frame is reached, and otherwise steps to the
`older` frame. -/
def btLoop {N : Nat} (ch : FrameChain N) (this_frame oldest_frame : Fin N) :
    Fin N → Nat → Nat → List String × BtStatus
  | _, _, 0 => ([], BtStatus.fuelOut)
  | frame, i, fuel + 1 =>
    let line := btLine ch this_frame frame i
    if frame = oldest_frame then ([line], BtStatus.finished)
    else
      match ch.older frame with
      | none => ([line], BtStatus.failed)
      | some g =>
        let r := btLoop ch this_frame oldest_frame g (i + 1) fuel
        (line :: r.1, r.2)

/-- Embedding of `context_backtrace` (context.py lines 349-395) for the
selected frame `this_frame`, with the emission loop fueled. -/
def context_backtrace {N : Nat} (ch : FrameChain N) (this_frame : Fin N)
    (frame_count : Nat) (with_banner : Bool) (fuel : Nat) :
    List String × BtStatus :=
  let oldest_frame := oldestOf ch this_frame frame_count
  let newest_frame := newestOf ch this_frame frame_count
  let r := btLoop ch this_frame oldest_frame newest_frame 0 fuel
  ((if with_banner then [bannerOf "backtrace"] else []) ++ r.1, r.2)

/-- The n-step iterate of `older`; `none` when the chain breaks before n
steps. -/
def olderIterN {N : Nat} (ch : FrameChain N) : Fin N → Nat → Option (Fin N)
  | f, 0 => some f
  | f, n + 1 =>
    match ch.older f with
    | none => none
    | some g => olderIterN ch g n

/-- A gdb lifecycle event as `save_signal` discriminates it (context.py
lines 413-446): an exited event carrying the exit code when the gdb version
provides one; a signal event carrying the stop-signal name, whether the rr
record/replay tool is detected, the current program counter, and the fault
address when the `$_siginfo` parse succeeds (`none` models the `gdb.error`
path); a breakpoint event carrying the triggered breakpoints' locations; a
continue event; or a stop event of no handled subclass. -/
inductive GdbEvent where
  | exitedEvent : Option Int → GdbEvent
  | signalEvent : String → Bool → Nat → Option Nat → GdbEvent
  | breakpointEvent : List String → GdbEvent
  | contEvent : GdbEvent
  | otherStopEvent : GdbEvent

/-- Modelled from the spec: the `pwndbg.color.message` wrappers (module not
under src/) are identity on the text without color. -/
def msgText (s : String) : String := s

/-- Embedding of `save_signal` (context.py lines 413-446): the value the
module-global `last_signal` holds after the callback runs. -/
def save_signal (signal : GdbEvent) : List String :=
  match signal with
  | GdbEvent.exitedEvent code =>
    match code with
    | some c => [msgText ("Exited: " ++ toString c)]
    | none => []
  | GdbEvent.signalEvent stop_signal rr pc si =>
    let msg := "Program received signal " ++ stop_signal
    let msg :=
      if stop_signal = "SIGSEGV" then
        if rr then msg ++ " (current pc: " ++ hexStr pc ++ ")"
        else
          match si with
          | some a => msg ++ " (fault address " ++ hexStr a ++ ")"
          | none => msg
      else msg
    [msgText msg]
  | GdbEvent.breakpointEvent locs => locs.map (fun l => msgText ("Breakpoint " ++ l))
  | GdbEvent.contEvent => []
  | GdbEvent.otherStopEvent => []

/-- Embedding of `context_signal` (context.py lines 449-450): it returns the
module-global `last_signal` and does not modify it. -/
def context_signal (last_signal : List String) : List String := last_signal

/-- The value of `last_signal` after the `save_signal` callback runs: the
assignment `last_signal = result = []` (context.py line 415) discards the
previous value before any branch formats a message. -/
def lastSignalAfterEvent (_prev : List String) (signal : GdbEvent) : List String :=
  save_signal signal

/-- A concrete configuration for the split-destination scenario of the
destination-merge claim: sections r and s at the default "nosplit"
destination, section d split to a distinct path. -/
def cfg1 : CtxConfig :=
  { output := "stdout", outputRegs := "nosplit", outputDisasm := "/tmp/ctx-d",
    outputArgs := "nosplit", outputCode := "nosplit", outputStack := "nosplit",
    outputBacktrace := "nosplit",
    contextSections := ["regs", "disasm", "code", "stack", "backtrace"] }

/-- A concrete process state for the split-destination scenario. -/
def st1 : CtxState :=
  { secOutput := fun c =>
      if c = 'r' then ["R1"] else if c = 'd' then ["D1"]
      else if c = 's' then ["S1"] else [],
    ttyname1 := some "/dev/pts/0", lastSignal := [] }

/-- A concrete configuration whose register section is split to the very
terminal attached to standard output. -/
def cfg2 : CtxConfig :=
  { output := "stdout", outputRegs := "/dev/pts/9", outputDisasm := "nosplit",
    outputArgs := "nosplit", outputCode := "nosplit", outputStack := "nosplit",
    outputBacktrace := "nosplit",
    contextSections := ["regs", "disasm", "code", "stack", "backtrace"] }

/-- A concrete process state whose controlling terminal matches the split
destination of `cfg2`. -/
def st2 : CtxState :=
  { secOutput := fun c => if c = 'r' then ["REGS"] else [],
    ttyname1 := some "/dev/pts/9", lastSignal := [] }

/-- A concrete configuration with every section at the default "nosplit"
destination and an empty default section order. -/
def cfg4 : CtxConfig :=
  { output := "stdout", outputRegs := "nosplit", outputDisasm := "nosplit",
    outputArgs := "nosplit", outputCode := "nosplit", outputStack := "nosplit",
    outputBacktrace := "nosplit", contextSections := [] }

/-- A concrete process state holding a pending signal record. -/
def st4 : CtxState :=
  { secOutput := fun _ => [], ttyname1 := some "/dev/pts/0",
    lastSignal := ["Exited: 0"] }

/-- A well-formed linear chain of exactly three frames: frame 0 is the
innermost (and selected) frame, frame 2 the outermost; `newer` is the
inverse of `older`. -/
def chain3 : FrameChain 3 :=
  { older := fun f => if f = 0 then some 1 else if f = 1 then some 2 else none,
    newer := fun f => if f = 2 then some 1 else if f = 1 then some 0 else none,
    pc := fun f => (f.val + 1) * 16,
    symbol := fun _ => "" }

/-- A malformed chain: from the selected frame 0 nothing is older, its
successor is frame 1, but walking `older` from frame 1 enters the self-loop
at frame 2 and never reaches frame 0. -/
def chainBad : FrameChain 3 :=
  { older := fun f => if f = 1 then some 2 else if f = 2 then some 2 else none,
    newer := fun f => if f = 0 then some 1 else none,
    pc := fun _ => 16,
    symbol := fun _ => "" }

/-- A concrete 200-line source file. -/
def src200 : List String := List.replicate 200 "int x;"

/-- A concrete process state in which standard output is not attached to a
terminal, so `os.ttyname(1)` raises OSError. -/
def st9 : CtxState :=
  { secOutput := fun _ => ["line"], ttyname1 := none, lastSignal := [] }

theorem mem_qKeys_queueAdd (q : List (String × List String)) (k : String)
    (v : List String) (x : String) (hx : x ∈ qKeys (queueAdd q k v)) :
    x ∈ qKeys q ∨ x = k := by
  induction q with
  | nil =>
    simp [queueAdd, qKeys] at hx
    exact Or.inr hx
  | cons p rest ih =>
    obtain ⟨k0, v0⟩ := p
    by_cases h0 : k0 = k
    · simp only [queueAdd, if_pos h0, qKeys, List.map_cons, List.mem_cons] at hx
      rcases hx with hx | hx
      · exact Or.inr (hx.trans h0)
      · exact Or.inl (by simp only [qKeys, List.map_cons, List.mem_cons]; exact Or.inr hx)
    · simp only [queueAdd, if_neg h0, qKeys, List.map_cons, List.mem_cons] at hx
      rcases hx with hx | hx
      · exact Or.inl (by simp only [qKeys, List.map_cons, List.mem_cons]; exact Or.inl hx)
      · rcases ih hx with h | h
        · exact Or.inl (by simp only [qKeys, List.map_cons, List.mem_cons]; exact Or.inr h)
        · exact Or.inr h

theorem queueAdd_nodup (q : List (String × List String)) (k : String)
    (v : List String) (h : (qKeys q).Nodup) : (qKeys (queueAdd q k v)).Nodup := by
  induction q with
  | nil => simp [queueAdd, qKeys]
  | cons p rest ih =>
    obtain ⟨k0, v0⟩ := p
    simp only [qKeys, List.map_cons, List.nodup_cons] at h
    by_cases h0 : k0 = k
    · simp only [queueAdd, if_pos h0, qKeys, List.map_cons, List.nodup_cons]
      exact ⟨h.1, h.2⟩
    · simp only [queueAdd, if_neg h0, qKeys, List.map_cons, List.nodup_cons]
      refine ⟨fun hmem => ?_, ih h.2⟩
      rcases mem_qKeys_queueAdd rest k v k0 hmem with hm | hm
      · exact h.1 hm
      · exact h0 hm

theorem splitFold_nodup (cfgOut : Char → Option String)
    (secOut : Char → Option (List String)) :
    ∀ (l : List Char) (args : List Char) (q : List (String × List String)),
      (qKeys q).Nodup →
      ∀ (res : List Char × List (String × List String)),
        splitFold cfgOut secOut l (args, q) = Except.ok res →
        (qKeys res.2).Nodup := by
  intro l
  induction l with
  | nil =>
    intro args q hq res h
    simp only [splitFold, Except.ok.injEq] at h
    rw [← h]
    exact hq
  | cons c rest ih =>
    intro args q hq res h
    rw [splitFold] at h
    cases hc : cfgOut c with
    | none => simp only [hc] at h; exact absurd h (by simp)
    | some d =>
      simp only [hc] at h
      by_cases hd : d ≠ "nosplit"
      · rw [if_pos hd] at h
        cases hs : secOut c with
        | some out =>
          simp only [hs] at h
          exact ih (args.erase c) (queueAdd q d out) (queueAdd_nodup q d out hq) res h
        | none =>
          simp only [hs] at h
          exact ih args q hq res h
      · rw [if_neg hd] at h
        exact ih args q hq res h

theorem qErase_no_key (q : List (String × List String)) (k : String)
    (h : (qKeys q).Nodup) : ∀ p ∈ qErase q k, p.1 ≠ k := by
  induction q with
  | nil => intro p hp; simp [qErase] at hp
  | cons e rest ih =>
    obtain ⟨k0, v0⟩ := e
    simp only [qKeys, List.map_cons, List.nodup_cons] at h
    intro p hp
    by_cases h0 : k0 = k
    · rw [qErase, if_pos h0] at hp
      intro hpk
      subst h0
      exact h.1 (by simpa [qKeys, hpk] using List.mem_map_of_mem Prod.fst hp)
    · rw [qErase, if_neg h0] at hp
      rcases List.mem_cons.mp hp with hp1 | hp1
      · rw [hp1]
        exact h0
      · exact ih h.2 p hp1

theorem olderIterN_trans {N : Nat} (ch : FrameChain N) :
    ∀ (a : Nat) (x y : Fin N), olderIterN ch x a = some y →
      ∀ (b : Nat), olderIterN ch x (a + b) = olderIterN ch y b := by
  intro a
  induction a with
  | zero =>
    intro x y h b
    simp only [olderIterN, Option.some.injEq] at h
    rw [Nat.zero_add, h]
  | succ a ih =>
    intro x y h b
    rw [olderIterN] at h
    cases hx : ch.older x with
    | none => simp only [hx] at h; exact Option.noConfusion h
    | some g =>
      simp only [hx] at h
      have hb : a + 1 + b = (a + b) + 1 := by omega
      rw [hb, olderIterN]
      simp only [hx]
      exact ih g y h b

theorem oldestOf_reach {N : Nat} (ch : FrameChain N) :
    ∀ (count : Nat) (f : Fin N),
      ∃ k ≤ count, olderIterN ch f k = some (oldestOf ch f count) := by
  intro count
  induction count with
  | zero => intro f; exact ⟨0, Nat.le_refl 0, rfl⟩
  | succ c ih =>
    intro f
    cases hx : ch.older f with
    | none =>
      refine ⟨0, Nat.zero_le _, ?_⟩
      rw [oldestOf]
      simp only [hx]
      rfl
    | some g =>
      obtain ⟨k, hk, hiter⟩ := ih g
      refine ⟨k + 1, by omega, ?_⟩
      rw [oldestOf]
      simp only [hx]
      rw [olderIterN]
      simp only [hx]
      exact hiter

theorem newestOf_reach {N : Nat} (ch : FrameChain N)
    (hinv : ∀ f g, ch.newer f = some g → ch.older g = some f) :
    ∀ (count : Nat) (f : Fin N),
      ∃ m ≤ count, olderIterN ch (newestOf ch f count) m = some f := by
  intro count
  induction count with
  | zero => intro f; exact ⟨0, Nat.le_refl 0, rfl⟩
  | succ c ih =>
    intro f
    cases hx : ch.newer f with
    | none =>
      refine ⟨0, Nat.zero_le _, ?_⟩
      rw [newestOf]
      simp only [hx]
      rfl
    | some g =>
      obtain ⟨m, hm, hiter⟩ := ih g
      refine ⟨m + 1, by omega, ?_⟩
      rw [newestOf]
      simp only [hx]
      rw [olderIterN_trans ch m (newestOf ch g c) g hiter 1]
      rw [olderIterN]
      simp only [hinv f g hx]
      rfl

theorem btLoop_reach {N : Nat} (ch : FrameChain N) (this_frame oldest_frame : Fin N) :
    ∀ (n : Nat) (start : Fin N) (i fuel : Nat),
      olderIterN ch start n = some oldest_frame → n + 1 ≤ fuel →
      (btLoop ch this_frame oldest_frame start i fuel).2 = BtStatus.finished ∧
      (btLoop ch this_frame oldest_frame start i fuel).1.length ≤ n + 1 := by
  intro n
  induction n with
  | zero =>
    intro start i fuel h hf
    have hs : start = oldest_frame := by
      simpa only [olderIterN, Option.some.injEq] using h
    obtain ⟨f, rfl⟩ : ∃ f, fuel = f + 1 := ⟨fuel - 1, by omega⟩
    subst hs
    simp [btLoop]
  | succ n ih =>
    intro start i fuel h hf
    obtain ⟨f, rfl⟩ : ∃ f, fuel = f + 1 := ⟨fuel - 1, by omega⟩
    by_cases hs : start = oldest_frame
    · subst hs
      simp only [btLoop, if_pos rfl]
      exact ⟨rfl, by simp⟩
    · rw [olderIterN] at h
      cases hx : ch.older start with
      | none => simp only [hx] at h; exact Option.noConfusion h
      | some g =>
        simp only [hx] at h
        obtain ⟨h1, h2⟩ := ih g (i + 1) f h (by omega)
        constructor
        · simp only [btLoop, if_neg hs, hx]
          exact h1
        · simp only [btLoop, if_neg hs, hx, List.length_cons]
          omega

theorem getLast?_append_singleton {α : Type} (l : List α) (a : α) :
    (l ++ [a]).getLast? = some a := by
  induction l with
  | nil => rfl
  | cons x xs ih =>
    cases xs with
    | nil => rfl
    | cons y ys =>
      rw [show (x :: y :: ys) ++ [a] = x :: y :: (ys ++ [a]) from rfl]
      rw [List.getLast?_cons_cons]
      exact ih

/-- Claim C1, counterexample: with sections r and s at the "nosplit"
destination and section d split to "/tmp/ctx-d", the refresh does not write
exactly the legend line followed by the r and s outputs to the primary
destination — a trailing blank banner line is written as well (and pending
signal lines would follow it). -/
theorem c1_counterexample :
    (context cfg1 st1 ["r", "d", "s"]).writes =
      [("stdout", [legendLine, "R1", "S1", bannerOf ""]),
        ("/tmp/ctx-d", ["D1"])] ∧
    [legendLine, "R1", "S1", bannerOf ""] ≠ [legendLine, "R1", "S1"] := by
  constructor
  · rfl
  · decide

/-- Claim C3, counterexample: with a window size of 10 and current line 50 in
a 200-line file, the resolver's window is lines 45 through 55, not lines 46
through 56 as claimed. -/
theorem c3_counterexample :
    (sourceWindow 10 50 src200).map Prod.fst =
      [45, 46, 47, 48, 49, 50, 51, 52, 53, 54, 55] ∧
    (sourceWindow 10 50 src200).map Prod.fst ≠
      [46, 47, 48, 49, 50, 51, 52, 53, 54, 55, 56] := by
  constructor
  · rfl
  · decide

/-- Claim C4, counterexample: a refresh does not consume the pending Signal
Record — `last_signal` still holds the record afterwards, and a second
refresh with no intervening lifecycle event writes the very same signal line
again. -/
theorem c4_counterexample :
    (context cfg4 st4 []).lastSignalAfter = ["Exited: 0"] ∧
    (context cfg4 st4 []).lastSignalAfter ≠ [] ∧
    (context cfg4
        { st4 with lastSignal := (context cfg4 st4 []).lastSignalAfter }
        []).writes = [("stdout", ["Exited: 0"])] := by
  refine ⟨rfl, by decide, rfl⟩

/-- Claim C5, counterexample: with the clear-screen flag set, the delivery to
the non-primary file destination "ctx.txt" does emit the clear-screen escape
sequence, contradicting the claim that non-primary destinations never
receive it. -/
theorem c5_counterexample :
    output "ctx.txt" ≠ Dest.stdoutDest ∧
    IOEv.writeS clear_screen_seq ∈ (show_context_trace true "ctx.txt" ["x"] none).1 := by
  constructor
  · decide
  · decide

/-- Claim C6, counterexample: the Output Router does not resolve the value
"primary" to the standard output stream — it treats it as a file path named
"primary". -/
theorem c6_counterexample :
    output "primary" = Dest.fileDest "primary" ∧
    output "primary" ≠ Dest.stdoutDest := by
  constructor
  · rfl
  · decide

/-- Claim C7: on a live chain of exactly 3 frames with `frame_count = 10`
(and no banner requested), the backtrace walker returns exactly 3 lines,
terminates, and the line of the originally selected frame carries the marker
glyph while every other line carries same-width blanks. -/
theorem c7_backtrace_three_frames :
    (context_backtrace chain3 0 10 false 21).1 =
      [" ► f 0 0x10", "   f 1 0x20", "   f 2 0x30"] ∧
    (context_backtrace chain3 0 10 false 21).2 = BtStatus.finished ∧
    (context_backtrace chain3 0 10 false 21).1.length = 3 ∧
    (context_backtrace chain3 0 10 false 21).1.map (fun l => l.take 3) =
      [" ► ", "   ", "   "] ∧
    (" ► " : String) ≠ "   " := by
  refine ⟨rfl, rfl, rfl, rfl, by decide⟩

/-- Claim C8, counterexample: on the malformed chain `chainBad` (the `older`
walk from the computed newest frame enters a self-loop and never reaches the
computed oldest frame), the emission loop is still running after 25
iterations and has already emitted 25 frame lines, exceeding the claimed
2 * frame_count + 1 = 21 bound — the walker does not terminate on every
chain. -/
theorem c8_counterexample :
    (context_backtrace chainBad 0 10 false 25).2 = BtStatus.fuelOut ∧
    (context_backtrace chainBad 0 10 false 25).1.length = 25 ∧
    2 * 10 + 1 < 25 := by
  refine ⟨rfl, rfl, by decide⟩

theorem contextCore_lastSignalAfter (cfg : CtxConfig) (st : CtxState) (args : List Char) :
    (contextCore cfg st args).lastSignalAfter = st.lastSignal := by
  unfold contextCore
  cases hsf : splitFold (splited_config_outputs cfg) (context_sections_get st) args (args, []) with
  | error e => rfl
  | ok p =>
    obtain ⟨args2, q⟩ := p
    cases htt : st.ttyname1 with
    | none => rfl
    | some tty => rfl

theorem context_lastSignalAfter (cfg : CtxConfig) (st : CtxState) (sub : List String) :
    (context cfg st sub).lastSignalAfter = st.lastSignal := by
  unfold context
  dsimp only
  cases hfc : firstChars (if sub = [] then cfg.contextSections else sub) with
  | error e => rfl
  | ok args => exact contextCore_lastSignalAfter cfg st args

/-- Claim C4, amended: reading the pending Signal Record does not consume
it — `context_signal` returns the stored record and leaves it unchanged, a
refresh never modifies `last_signal`, and a second refresh with no
intervening lifecycle event behaves identically to the first, reporting the
same signal lines again; the record is replaced only by the next
`save_signal` callback. -/
theorem c4_signal_retained_amended (cfg : CtxConfig) (st : CtxState)
    (sub : List String) :
    (context cfg st sub).lastSignalAfter = st.lastSignal ∧
    context_signal st.lastSignal = st.lastSignal ∧
    context cfg { st with lastSignal := (context cfg st sub).lastSignalAfter } sub =
      context cfg st sub := by
  refine ⟨context_lastSignalAfter cfg st sub, rfl, ?_⟩
  rw [context_lastSignalAfter cfg st sub]

/-- Claim C10: every lifecycle event callback replaces the stored Signal
Record independently of what was previously stored, and after a
process-continued event or a stop event of no handled kind the record is a
fresh empty one, so draining the cache yields an empty sequence. -/
theorem c10_save_signal_resets (prev : List String) :
    lastSignalAfterEvent prev GdbEvent.contEvent = [] ∧
    lastSignalAfterEvent prev GdbEvent.otherStopEvent = [] ∧
    context_signal (lastSignalAfterEvent prev GdbEvent.contEvent) = [] ∧
    context_signal (lastSignalAfterEvent prev GdbEvent.otherStopEvent) = [] ∧
    ∀ (e : GdbEvent), lastSignalAfterEvent prev e = save_signal e :=
  ⟨rfl, rfl, rfl, rfl, fun _ => rfl⟩

/-- Claim C5, amended: when the clear-screen flag is set, the
clear-screen/cursor-home escape sequence is emitted before the lines for
every destination — primary stream, file or terminal alike — and when the
flag is clear no destination receives it (for a delivery whose content does
not itself contain the sequence as a line). -/
theorem c5_clear_screen_amended (config_output_tty : String) (content : List String)
    (hc : ∀ l ∈ content, l ++ "\n" ≠ clear_screen_seq) :
    firstWriteEv (show_context_trace true config_output_tty content none).1 =
      some (IOEv.writeS clear_screen_seq) ∧
    IOEv.writeS clear_screen_seq ∉
      (show_context_trace false config_output_tty content none).1 := by
  have hb : IOEv.writeS clear_screen_seq ∉ bodyOps false content := by
    intro hmem
    simp only [bodyOps, Bool.false_eq_true, if_false, List.nil_append, List.mem_append,
      List.mem_map, List.mem_singleton, IOEv.writeS.injEq] at hmem
    rcases hmem with ⟨l, hl, he⟩ | he
    · exact hc l hl he
    · exact IOEv.noConfusion he
  constructor
  · unfold show_context_trace
    cases ho : output config_output_tty with
    | stdoutDest => rfl
    | fileDest p => rfl
  · intro hmem
    unfold show_context_trace at hmem
    rcases ho : output config_output_tty with _ | p
    · rw [ho] at hmem
      exact hb hmem
    · rw [ho] at hmem
      simp only [List.mem_cons, List.mem_append, List.mem_singleton] at hmem
      rcases hmem with he | hm | he | he
      · exact IOEv.noConfusion he
      · exact hb hm
      · exact IOEv.noConfusion he
      · simp at he

/-- Claim C5, witness: the amended theorem applied to a one-line delivery to
a file destination. -/
theorem c5_witness :
    (∀ l ∈ (["hello"] : List String), l ++ "\n" ≠ clear_screen_seq) ∧
    (firstWriteEv (show_context_trace true "ctx-split.txt" ["hello"] none).1 =
      some (IOEv.writeS clear_screen_seq) ∧
     IOEv.writeS clear_screen_seq ∉
      (show_context_trace false "ctx-split.txt" ["hello"] none).1) :=
  ⟨by decide, c5_clear_screen_amended "ctx-split.txt" ["hello"] (by decide)⟩

/-- Claim C6, amended: the Output Router resolves the empty value and
"stdout" to the standard output stream; any other value — including the
literal "primary" — is treated as a file path opened in truncate-write
("w") mode for the duration of the write and closed afterwards, the close
guaranteed even if the write fails partway. -/
theorem c6_output_resolution_amended (p : String) (content : List String)
    (clear : Bool) (failAt : Option Nat) (hp : ¬(p = "" ∨ p = "stdout")) :
    output "" = Dest.stdoutDest ∧ output "stdout" = Dest.stdoutDest ∧
    output p = Dest.fileDest p ∧
    (show_context_trace clear p content failAt).1.head? = some (IOEv.openF p "w") ∧
    (show_context_trace clear p content failAt).1.getLast? = some (IOEv.closeF p) := by
  have ho : output p = Dest.fileDest p := by
    unfold output
    rw [if_neg hp]
  refine ⟨rfl, rfl, ho, ?_, ?_⟩
  · unfold show_context_trace
    rw [ho]
    rfl
  · unfold show_context_trace
    rw [ho]
    dsimp only
    rw [← List.cons_append]
    exact getLast?_append_singleton _ (IOEv.closeF p)

/-- Claim C6, witness: the amended theorem applied to a file destination
whose write fails at the very first body operation — the trace still opens
in "w" mode first and closes last. -/
theorem c6_witness :
    (¬(("context.out" : String) = "" ∨ ("context.out" : String) = "stdout")) ∧
    (output "" = Dest.stdoutDest ∧ output "stdout" = Dest.stdoutDest ∧
     output "context.out" = Dest.fileDest "context.out" ∧
     (show_context_trace false "context.out" ["x"] (some 0)).1.head? =
       some (IOEv.openF "context.out" "w") ∧
     (show_context_trace false "context.out" ["x"] (some 0)).1.getLast? =
       some (IOEv.closeF "context.out")) :=
  ⟨by decide, c6_output_resolution_amended "context.out" ["x"] false (some 0) (by decide)⟩

/-- Claim C3, amended: when the source window size configuration is 10 and
the resolved current line is 50 in a 200-line file, the source window
resolver produces the lines numbered 45 through 55 inclusive (5 before the
current line, the current line, and 5 after, clamped to the file bounds
near the edges). -/
theorem c3_window_amended (source : List String) (h : source.length = 200) :
    (sourceWindow 10 50 source).map Prod.fst =
      [45, 46, 47, 48, 49, 50, 51, 52, 53, 54, 55] := by
  have h1 : (max ((50 : Int) - 1 - Int.fdiv 10 2) 0) = 44 := by decide
  have h2 : (min ((50 : Int) - 1 + Int.fdiv 10 2 + 1) ((source.length : Int))) = 55 := by
    rw [h]; decide
  simp only [sourceWindow]
  rw [h1, h2]
  have h3 : ((44 : Int)).toNat = 44 := rfl
  have h4 : (((55 : Int) - 44)).toNat = 11 := rfl
  rw [h3, h4]
  have hlen : ((source.drop 44).take 11).length = 11 := by
    simp [List.length_take, List.length_drop, h]
  rw [List.map_map]
  have hfst : (Prod.fst ∘ fun p : Nat × String => ((44 : Int) + 1 + (p.1 : Int), p.2)) =
      (fun p : Nat × String => (44 : Int) + 1 + (p.1 : Int)) := rfl
  rw [hfst]
  have hcomp : ((source.drop 44).take 11).enum.map
        (fun p : Nat × String => (44 : Int) + 1 + (p.1 : Int)) =
      (((source.drop 44).take 11).enum.map Prod.fst).map
        (fun i : Nat => (44 : Int) + 1 + (i : Int)) := by
    rw [List.map_map]
    rfl
  rw [hcomp, List.enum_map_fst, hlen]
  decide

/-- Claim C3, witness: the amended theorem applied to a concrete 200-line
file. -/
theorem c3_witness :
    src200.length = 200 ∧
    (sourceWindow 10 50 src200).map Prod.fst =
      [45, 46, 47, 48, 49, 50, 51, 52, 53, 54, 55] :=
  ⟨by decide, c3_window_amended src200 (by decide)⟩

/-- Claim C1, amended: for a refresh over requested sections r, d, s where
sections r and s have the "nosplit" destination and section d is configured
to a distinct path P (also distinct from the controlling terminal), the
refresh writes the legend line, then the r output followed by the s output
in that order, then one blank banner line followed by any pending signal
lines, to the primary destination, and writes exactly the d output to P. -/
theorem c1_split_merge_amended (cfg : CtxConfig) (st : CtxState) (P tty : String)
    (h1 : cfg.outputRegs = "nosplit") (h2 : cfg.outputStack = "nosplit")
    (h3 : cfg.outputDisasm = P) (h4 : P ≠ "nosplit") (h5 : P ≠ tty)
    (h6 : st.ttyname1 = some tty) :
    context cfg st ["r", "d", "s"] =
      ⟨[(cfg.output, legendLine :: (st.secOutput 'r' ++ (st.secOutput 's' ++
          (bannerOf "" :: st.lastSignal)))), (P, st.secOutput 'd')],
        st.lastSignal, none⟩ := by
  have e0 : context cfg st ["r", "d", "s"] = contextCore cfg st ['r', 'd', 's'] := rfl
  rw [e0]
  have e1 : splitFold (splited_config_outputs cfg) (context_sections_get st)
      ['r', 'd', 's'] (['r', 'd', 's'], []) =
      Except.ok (['r', 's'], [(P, st.secOutput 'd')]) := by
    simp only [splitFold, splited_config_outputs, context_sections_get, sectionKeys,
      h1, h2, h3, queueAdd, List.erase]
    simp [h4]
  unfold contextCore
  rw [e1, h6]
  dsimp only
  have e2 : qLookup [(P, st.secOutput 'd')] tty = none := by
    simp [qLookup, h5]
  rw [e2]
  dsimp only
  simp [defaultBatch, context_sections_get, sectionKeys]

/-- Claim C1, witness: the amended theorem applied to the concrete
configuration `cfg1` and state `st1`. -/
theorem c1_witness :
    ((("/tmp/ctx-d" : String) ≠ "nosplit") ∧ (("/tmp/ctx-d" : String) ≠ "/dev/pts/0")) ∧
    context cfg1 st1 ["r", "d", "s"] =
      ⟨[(cfg1.output, legendLine :: (st1.secOutput 'r' ++ (st1.secOutput 's' ++
          (bannerOf "" :: st1.lastSignal)))), ("/tmp/ctx-d", st1.secOutput 'd')],
        st1.lastSignal, none⟩ :=
  ⟨⟨by decide, by decide⟩,
    c1_split_merge_amended cfg1 st1 "/tmp/ctx-d" "/dev/pts/0" rfl rfl rfl
      (by decide) (by decide) rfl⟩

/-- Claim C2: for every refresh in which some per-destination batch's key
equals the name of the terminal attached to standard output, that batch's
lines are appended to the default-stream batch (before the banner and
signal lines) and written once via the primary destination, and no separate
write to that terminal destination occurs. -/
theorem c2_tty_dedup (cfg : CtxConfig) (st : CtxState) (args args2 : List Char)
    (q : List (String × List String)) (tty : String) (batch : List String)
    (hsf : splitFold (splited_config_outputs cfg) (context_sections_get st) args (args, []) =
      Except.ok (args2, q))
    (htty : st.ttyname1 = some tty)
    (hq : qLookup q tty = some batch) :
    contextCore cfg st args =
      ⟨(cfg.output,
          (if 0 < (defaultBatch st args2 ++ batch).length
           then (defaultBatch st args2 ++ batch) ++ [bannerOf ""]
           else defaultBatch st args2 ++ batch) ++ st.lastSignal) :: qErase q tty,
        st.lastSignal, none⟩ ∧
    ∀ p ∈ qErase q tty, p.1 ≠ tty := by
  constructor
  · unfold contextCore
    rw [hsf, htty]
    dsimp only
    rw [hq]
  · have hnil : (qKeys ([] : List (String × List String))).Nodup := by simp [qKeys]
    exact qErase_no_key q tty (splitFold_nodup _ _ args args [] hnil (args2, q) hsf)

/-- Claim C2, witness: the theorem applied to the concrete configuration
`cfg2`, whose register section is split to the terminal attached to
standard output. -/
theorem c2_witness :
    contextCore cfg2 st2 ['r'] =
      ⟨(cfg2.output,
          (if 0 < (defaultBatch st2 [] ++ ["REGS"]).length
           then (defaultBatch st2 [] ++ ["REGS"]) ++ [bannerOf ""]
           else defaultBatch st2 [] ++ ["REGS"]) ++ st2.lastSignal) ::
        qErase [("/dev/pts/9", ["REGS"])] "/dev/pts/9",
        st2.lastSignal, none⟩ ∧
    ∀ p ∈ qErase [("/dev/pts/9", ["REGS"])] "/dev/pts/9", p.1 ≠ "/dev/pts/9" :=
  c2_tty_dedup cfg2 st2 ['r'] [] [("/dev/pts/9", ["REGS"])] "/dev/pts/9" ["REGS"]
    rfl rfl rfl

/-- Claim C8, amended: for every well-formed frame chain — one in which
`newer` steps are inverted by `older`, as live gdb chains are — the
backtrace emission loop terminates and the total number of emitted frame
lines is bounded by the combined predecessor-plus-successor walk, at most
2 * frame_count + 1; on a cyclic or malformed chain the loop need not
terminate (see the counterexample). -/
theorem c8_bounded_amended {N : Nat} (ch : FrameChain N) (this_frame : Fin N)
    (frame_count fuel : Nat)
    (hinv : ∀ f g, ch.newer f = some g → ch.older g = some f)
    (hfuel : 2 * frame_count + 1 ≤ fuel) :
    (context_backtrace ch this_frame frame_count false fuel).2 = BtStatus.finished ∧
    (context_backtrace ch this_frame frame_count false fuel).1.length ≤
      2 * frame_count + 1 := by
  obtain ⟨k, hk, hko⟩ := oldestOf_reach ch frame_count this_frame
  obtain ⟨m, hm, hmo⟩ := newestOf_reach ch hinv frame_count this_frame
  have hpath : olderIterN ch (newestOf ch this_frame frame_count) (m + k) =
      some (oldestOf ch this_frame frame_count) := by
    rw [olderIterN_trans ch m (newestOf ch this_frame frame_count) this_frame hmo k]
    exact hko
  have hb := btLoop_reach ch this_frame (oldestOf ch this_frame frame_count) (m + k)
      (newestOf ch this_frame frame_count) 0 fuel hpath (by omega)
  unfold context_backtrace
  dsimp only
  simp only [Bool.false_eq_true, if_false, List.nil_append]
  exact ⟨hb.1, le_trans hb.2 (by omega)⟩

/-- Claim C8, witness: the amended theorem applied to the well-formed
three-frame chain with `frame_count = 10` and fuel 21. -/
theorem c8_witness :
    ((∀ f g, chain3.newer f = some g → chain3.older g = some f) ∧
      2 * 10 + 1 ≤ 21) ∧
    ((context_backtrace chain3 0 10 false 21).2 = BtStatus.finished ∧
     (context_backtrace chain3 0 10 false 21).1.length ≤ 2 * 10 + 1) :=
  ⟨⟨by decide, by decide⟩, c8_bounded_amended chain3 0 10 21 (by decide) (by decide)⟩

/-- Claim C9: the refresh queries `os.ttyname(1)` unconditionally, before
checking whether any per-destination batch exists; whenever standard output
is not attached to a terminal the refresh raises an OSError and performs no
write at all — even when every section uses the default "nosplit"
destination and the per-destination queue is empty. -/
theorem c9_ttyname_unconditional (cfg : CtxConfig) (st : CtxState)
    (args args2 : List Char) (q : List (String × List String))
    (hsf : splitFold (splited_config_outputs cfg) (context_sections_get st) args (args, []) =
      Except.ok (args2, q))
    (htty : st.ttyname1 = none) :
    contextCore cfg st args = ⟨[], st.lastSignal, some CtxErr.osError⟩ := by
  unfold contextCore
  rw [hsf, htty]

/-- Claim C9, witness: the theorem applied to the all-"nosplit"
configuration `cfg4` and the state `st9` whose standard output is not a
terminal — the split queue is empty and still the refresh fails with
OSError, writing nothing. -/
theorem c9_witness :
    contextCore cfg4 st9 ['r', 'd', 's'] = ⟨[], st9.lastSignal, some CtxErr.osError⟩ :=
  c9_ttyname_unconditional cfg4 st9 ['r', 'd', 's'] ['r', 'd', 's'] [] rfl rfl
